/-
Verification of the money-dashboard chart/selection core.

Shallow embedding of the repository's Python code:
  * `src/utils.py`   — `LineGraph` (the bounded Series Store) and the two
    finance formulas `calc_time_until_cleared` / `calc_time_until_fire`.
  * `src/widgets.py` — `NaturalNumberEntry` (validation + pub/sub traces)
    and the `DebtPayoffWidget` controller (`swap_selected`, `add_line`,
    `delete_line`, `entry_change_callback`).

Numbers are embedded as exact rationals (`ℚ`).  The Python `while` loops
are embedded with an explicit fuel parameter; running out of fuel is the
`outOfFuel` result, so "the loop does not terminate" is rendered as
"every fuel amount yields `outOfFuel`".  Python exceptions are rendered
as error results: `TypeError` (an operand is `None`) becomes
`typeMismatch`, `RuntimeError` becomes `domainInvalid`, and
`ZeroDivisionError` becomes `zeroDivision`.
-/
import Mathlib

set_option maxHeartbeats 1000000
set_option maxRecDepth 100000

/-! ## Finance formulas (`src/utils.py`) -/

/-- Result of a formula call: a value, or the embedded Python exception. -/
inductive CalcResult (α : Type) where
  | ok : α → CalcResult α
  | typeMismatch : CalcResult α
  | domainInvalid : CalcResult α
  | zeroDivision : CalcResult α
  | outOfFuel : CalcResult α
deriving DecidableEq

/-- The `while balance > 0` loop of `calc_time_until_cleared`:
`running_balance.append(balance); balance = balance + interest - payment;
interest = apr * balance / 1200` — the loop invariant of the source is that
`interest` always equals `apr * balance / 1200` of the current balance, so
the body is one step `balance := balance + apr * balance / 1200 - payment`.
After the loop exits, the source appends the literal `0`. -/
def clearedLoop (p a : ℚ) : Nat → ℚ → Option (List ℚ)
  | 0, b => if 0 < b then none else some [0]
  | f + 1, b =>
    if 0 < b then (clearedLoop p a f (b + a * b / 1200 - p)).map (fun seq => b :: seq)
    else some [0]

/-- `calc_time_until_cleared(balance, payment, apr)` from `src/utils.py`.
`None` arguments raise `TypeError` at `interest = apr * balance / 1200`
resp. `payment <= interest` before anything else happens; then
`payment <= interest` raises `RuntimeError`; then the loop runs and the
function returns `(len(running_balance) - 1, running_balance)`. -/
def calc_time_until_cleared (fuel : Nat) (balance payment apr : Option ℚ) :
    CalcResult (Nat × List ℚ) :=
  match balance, payment, apr with
  | some b, some p, some a =>
    if p ≤ a * b / 1200 then .domainInvalid
    else
      match clearedLoop p a fuel b with
      | some seq => .ok (seq.length - 1, seq)
      | none => .outOfFuel
  | _, _, _ => .typeMismatch

/-- The `while balance < target` loop of `calc_time_until_fire`:
`running_balance.append(balance); gain = rate * balance / 100;
balance = balance + gain + 12 * deposit`.  After the loop exits the source
appends the final (unclamped) balance. -/
def fireLoop (rate deposit target : ℚ) : Nat → ℚ → Option (List ℚ)
  | 0, b => if b < target then none else some [b]
  | f + 1, b =>
    if b < target then
      (fireLoop rate deposit target f (b + rate * b / 100 + 12 * deposit)).map
        (fun seq => b :: seq)
    else some [b]

/-- `calc_time_until_fire(income, balance, deposit, rate, safe_rate)` from
`src/utils.py`.  The source first substitutes
`safe_rate = rate if safe_rate is None else safe_rate`, then computes
`target = 1200 * income / safe_rate` (a `TypeError` if `income` or the
substituted `safe_rate` is `None`, a `ZeroDivisionError` if it is `0`),
then raises `RuntimeError` when `target <= balance` (a `TypeError` first
when `balance` is `None`), and only inside the loop touches `rate` and
`deposit` (so their `TypeError` fires only when the loop is entered, which
happens exactly when the domain check passed). -/
def calc_time_until_fire (fuel : Nat) (income balance deposit rate safe_rate : Option ℚ) :
    CalcResult (Nat × List ℚ) :=
  match income, (if safe_rate = none then rate else safe_rate) with
  | some inc, some sr =>
    if sr = 0 then .zeroDivision
    else
      let target := 1200 * inc / sr
      match balance with
      | some bal =>
        if target ≤ bal then .domainInvalid
        else
          match rate, deposit with
          | some r, some d =>
            match fireLoop r d target fuel bal with
            | some seq => .ok (seq.length - 1, seq)
            | none => .outOfFuel
          | _, _ => .typeMismatch
      | none => .typeMismatch
  | _, _ => .typeMismatch

/-- Fuel that always suffices for `calc_time_until_cleared` on natural-number
inputs that pass the domain check (the balance drops by at least `1/1200`
per month there). -/
def clearedFuel (b : Nat) : Nat := 1200 * b + 2

/-- The debt formula as the controller calls it: natural-number field values,
with enough fuel for the loop to finish whenever the domain check passes. -/
def calcClearedNat (b p a : Nat) : CalcResult (Nat × List ℚ) :=
  calc_time_until_cleared (clearedFuel b) (some (b : ℚ)) (some (p : ℚ)) (some (a : ℚ))

/-! ## The Series Store: `LineGraph` (`src/utils.py`) -/

/-- The style attributes `select` / `unselect` touch on a matplotlib line:
`set_marker`, `set_linestyle`, `set_color`. -/
structure LineStyle where
  marker : String
  linestyle : String
  color : String
deriving DecidableEq

/-- Style written by `LineGraph.select`. -/
def selStyle : LineStyle := ⟨".", "--", "r"⟩

/-- Style written by `LineGraph.unselect`. -/
def normalStyle : LineStyle := ⟨"", "-", "k"⟩

/-- Style of a freshly created matplotlib line, before `plot` forces it
with `unselect` (solid line in the default color cycle). -/
def defStyle : LineStyle := ⟨"", "-", "C0"⟩

/-- The per-chart-type metadata schema of the debt widget:
`{'balance': ..., 'payment': ..., 'apr': ...}` with natural-number values
(the widget only ever stores values read from `NaturalNumberEntry` fields
or the literal defaults `1000, 25, 25`). -/
structure DebtMeta where
  balance : Nat
  payment : Nat
  apr : Nat
deriving DecidableEq, Inhabited

/-- One plotted series: a matplotlib `Line2D` together with the `metadata`
attribute the widget attaches to it. -/
structure Line where
  style : LineStyle
  metadata : DebtMeta
  xdata : List ℚ
  ydata : List ℚ
deriving DecidableEq

instance : Inhabited Line := ⟨⟨defStyle, default, [], []⟩⟩

/-- `visual_state` of the spec: derived from the style triple. -/
inductive VisualState where
  | NORMAL : VisualState
  | SELECTED : VisualState
deriving DecidableEq

/-- A series is in the SELECTED visual state exactly when it carries the
style triple that `select` writes. -/
def Line.visual_state (l : Line) : VisualState :=
  if l.style = selStyle then .SELECTED else .NORMAL

/-- `LineGraph`: the bounded ordered Series Store. -/
structure LineGraph where
  max_lines : Nat
  lines : List Line
deriving DecidableEq

/-- `LineGraph.num_lines`. -/
def LineGraph.num_lines (g : LineGraph) : Nat := g.lines.length

/-- Replace the line at index `i` by `f` of it; out-of-range indices leave
the list unchanged (the store's methods bounds-check first). -/
def modifyLine (ls : List Line) (i : Nat) (f : Line → Line) : List Line :=
  match ls[i]? with
  | some l => ls.set i (f l)
  | none => ls

/-- `LineGraph.select`: bounds-check, then set the selected style. -/
def LineGraph.select (g : LineGraph) (which : Nat) : Bool × LineGraph :=
  if which < g.num_lines then
    (true, { g with lines := modifyLine g.lines which (fun l => { l with style := selStyle }) })
  else (false, g)

/-- `LineGraph.unselect`: bounds-check, then set the normal style. -/
def LineGraph.unselect (g : LineGraph) (which : Nat) : Bool × LineGraph :=
  if which < g.num_lines then
    (true, { g with lines := modifyLine g.lines which (fun l => { l with style := normalStyle }) })
  else (false, g)

/-- `LineGraph.update`: bounds-check, then replace data and metadata of the
line at `which` (its style is untouched). -/
def LineGraph.update (g : LineGraph) (which : Nat) (xdata ydata : List ℚ) (meta : DebtMeta) :
    Bool × LineGraph :=
  if which < g.num_lines then
    let f := fun l => { l with xdata := xdata, ydata := ydata, metadata := meta }
    (true, { g with lines := modifyLine g.lines which f })
  else (false, g)

/-- `LineGraph.remove`: bounds-check, then `lines.pop(which)`. -/
def LineGraph.remove (g : LineGraph) (which : Nat) : Bool × LineGraph :=
  if which < g.num_lines then (true, { g with lines := g.lines.eraseIdx which })
  else (false, g)

/-- `LineGraph.plot`: refuse when `len(self.lines) == self.max_lines`;
otherwise append the new line (freshly styled by matplotlib), force its
styling with `unselect(self.num_lines - 1)`, and attach the metadata. -/
def LineGraph.plot (g : LineGraph) (meta : DebtMeta) (xdata ydata : List ℚ) :
    Bool × LineGraph :=
  if g.num_lines = g.max_lines then (false, g)
  else
    let g1 : LineGraph := { g with lines := g.lines ++ [⟨defStyle, meta, xdata, ydata⟩] }
    (true, (g1.unselect (g1.num_lines - 1)).2)

/-! ## `NaturalNumberEntry` text handling (`src/widgets.py`) -/

/-- `NaturalNumberEntry.is_valid(proposed)`: the per-keystroke validator.
Empty text is accepted; otherwise `proposed[0] != '0' and proposed.isdigit()`. -/
def is_valid (proposed : String) : Bool :=
  match proposed.data with
  | [] => true
  | c :: rest => c ≠ '0' && (c :: rest).all Char.isDigit

/-- Python's `str` on a non-negative integer: its base-10 digits, most
significant first, `"0"` for zero. -/
def natStr (n : Nat) : String :=
  if n = 0 then "0" else ⟨((Nat.digits 10 n).map Nat.digitChar).reverse⟩

/-- Python's `int` on a digits-only string (the only strings the widgets
ever feed it, thanks to `is_valid`). -/
def pyInt (s : String) : Nat :=
  s.data.foldl (fun acc c => 10 * acc + (c.toNat - 48)) 0

/-- `NaturalNumberEntry.value`: `None` when the entry text is empty,
`int(text)` otherwise. -/
def parseVal (s : String) : Option Nat :=
  if s = "" then none else some (pyInt s)

/-- `NaturalNumberEntry.set_entry`: keep the old text when the proposed
text fails `is_valid`, otherwise store it. -/
def setEntryText (old t : String) : String :=
  if is_valid t then t else old

/-! ## The pub/sub trace mechanism of one `NaturalNumberEntry` -/

/-- The observable state of one `NaturalNumberEntry`: the entry text, the
`_backup_value` initialised to `0`, and the `disabled` flag of the traces. -/
structure EntryModel where
  text : String
  backup : Nat
  disabled : Bool
deriving DecidableEq

/-- Fresh entry widget: empty text, backup value `0`, traces enabled. -/
def initEntry : EntryModel := ⟨"", 0, false⟩

/-- `NaturalNumberEntry.run_traces`: do nothing when disabled; otherwise
send `value` to every observer, substituting (and keeping) `_backup_value`
when `value` is `None`.  The second component is the value every observer
callback receives (`none` means the callbacks were not invoked at all). -/
def run_traces (s : EntryModel) : EntryModel × Option Nat :=
  if s.disabled then (s, none)
  else
    match parseVal s.text with
    | none => (s, some s.backup)
    | some v => ({ s with backup := v }, some v)

/-- Events on one entry: a write of the backing `StringVar` (every write
fires `run_traces`), and `enable_traces` / `disable_traces`. -/
inductive EntryEvent where
  | write : String → EntryEvent
  | enableTr : EntryEvent
  | disableTr : EntryEvent

/-- Writes come from keystrokes (checked by `is_valid` via the registered
`validatecommand`), from validated `set_entry` calls, or from `delete`
(which leaves the empty string); so every written text passes `is_valid`. -/
def EntryEvent.validEv : EntryEvent → Bool
  | .write t => is_valid t
  | _ => true

/-- One entry event step; the second component is the value delivered to
the observer callbacks, if they ran. -/
def entryStep (s : EntryModel) : EntryEvent → EntryModel × Option Nat
  | .write t => run_traces { s with text := t }
  | .enableTr => ({ s with disabled := false }, none)
  | .disableTr => ({ s with disabled := true }, none)

/-- Run a sequence of entry events, recording every observer invocation as
a pair (entry text at the time, value delivered). -/
def entryRun (s : EntryModel) : List EntryEvent → EntryModel × List (String × Nat)
  | [] => (s, [])
  | e :: es =>
    let p := entryStep s e
    let q := entryRun p.1 es
    match p.2 with
    | none => (q.1, q.2)
    | some v => (q.1, (p.1.text, v) :: q.2)

/-- The most recent value delivered to observers while the entry text was
non-empty; `0` when there has never been one. -/
def lastNonempty (sent : List (String × Nat)) : Nat :=
  ((sent.filter (fun q => q.1 ≠ "")).getLast?).elim 0 Prod.snd

/-! ## The `DebtPayoffWidget` controller (`src/widgets.py`) -/

/-- The three entry texts of the widget, keyed `Balance` /
`Monthly Payment` / `APR` in the source. -/
structure Entries where
  balance : String
  payment : String
  apr : String
deriving DecidableEq

/-- `NaturalNumberEntries.clear`: `entry.delete(0, END)` on every entry. -/
def clearedEntries : Entries := ⟨"", "", ""⟩

/-- `entries.load({...: str(...)})` right after a `clear`: each field gets
`str` of the metadata value, subject to `set_entry` validation. -/
def loadEntries (m : DebtMeta) : Entries :=
  ⟨setEntryText "" (natStr m.balance),
   setEntryText "" (natStr m.payment),
   setEntryText "" (natStr m.apr)⟩

/-- Which entry a keystroke goes to. -/
inductive EntryField where
  | balance : EntryField
  | payment : EntryField
  | apr : EntryField

/-- Replace one entry's text. -/
def setField (e : Entries) : EntryField → String → Entries
  | .balance, t => { e with balance := t }
  | .payment, t => { e with payment := t }
  | .apr, t => { e with apr := t }

/-- `DebtPayoffWidget` state: the line graph, `self.selected`, the entry
texts, whether the entry boxes accept input (`state='normal'`), and the
shared `disabled` flag of the entries' pub/sub traces. -/
structure DebtWidget where
  graph : LineGraph
  selected : Option Nat
  entries : Entries
  entriesEnabled : Bool
  tracesDisabled : Bool
deriving DecidableEq

/-- Fresh widget: `LineGraph()` with the default `max_lines = 5`, nothing
selected, entries empty and disabled (traces start enabled). -/
def initWidget : DebtWidget :=
  ⟨⟨5, []⟩, none, clearedEntries, false, false⟩

/-- `range(len(seq))` as x-data. -/
def rangeQ (n : Nat) : List ℚ := (List.range n).map (fun k => (k : ℚ))

/-- `DebtPayoffWidget.entry_change_callback`: read the three entry values
(`meta = self.entries.get()`), call `calc_time_until_cleared(**meta)`, and
on success update the selected line with `range(len(running_bal))`,
`running_bal` and the new metadata.  A `RuntimeError` (`domainInvalid`) or
`TypeError` (`typeMismatch`, i.e. some entry is `None`) is swallowed and
the graph is left untouched. -/
def entryChangeCallback (w : DebtWidget) : DebtWidget :=
  match parseVal w.entries.balance, parseVal w.entries.payment, parseVal w.entries.apr with
  | some b, some p, some a =>
    match calcClearedNat b p a with
    | .ok r =>
      match w.selected with
      | some i => { w with graph := (w.graph.update i (rangeQ r.2.length) r.2 ⟨b, p, a⟩).2 }
      | none => w
    | _ => w
  | _, _, _ => w

/-- `DebtPayoffWidget.add_line`: compute the default schedule for
`balance=1000, payment=25, apr=25` and plot it with that metadata (a
single positional data argument, so matplotlib uses `range(len(...))` as
x-data). -/
def addLine (w : DebtWidget) : DebtWidget :=
  match calcClearedNat 1000 25 25 with
  | .ok r => { w with graph := (w.graph.plot ⟨1000, 25, 25⟩ (rangeQ r.2.length) r.2).2 }
  | _ => w

/-- Metadata of the line at index `i` (the picked artist's `metadata`). -/
def lineMetaAt (g : LineGraph) (i : Nat) : DebtMeta := (g.lines.getD i default).metadata

/-- `swap_selected` of `DebtPayoffWidget`, for a pick event on line `i`.
The source first calls `disable_traces`, `clear`, `disable` on the
entries, then branches on `self.selected`; the select branches re-enable
the entry boxes, `load` the picked line's metadata (via validated
`set_entry`) and re-enable traces.  `select`/`unselect` only touch the
style triple, so reading the picked line's metadata before or after them
is the same. -/
def swapSelected (w : DebtWidget) (i : Nat) : DebtWidget :=
  match w.selected with
  | none =>
    { w with graph := (w.graph.select i).2,
             entries := loadEntries (lineMetaAt w.graph i),
             entriesEnabled := true, tracesDisabled := false, selected := some i }
  | some j =>
    if j = i then
      { w with graph := (w.graph.unselect j).2,
               entries := clearedEntries, entriesEnabled := false, tracesDisabled := true,
               selected := none }
    else
      { w with graph := (((w.graph.unselect j).2).select i).2,
               entries := loadEntries (lineMetaAt w.graph i),
               entriesEnabled := true, tracesDisabled := false, selected := some i }

/-- `DebtPayoffWidget.delete_line`: no-op when nothing is selected;
otherwise remove the selected line, clear and disable the entries.  (The
`clear` fires `run_traces` once per entry, but each such callback reads an
already-empty `Balance` entry, gets `None`, and is swallowed as a
`TypeError`, so those callbacks never touch the graph.) -/
def deleteLine (w : DebtWidget) : DebtWidget :=
  match w.selected with
  | none => w
  | some j =>
    { w with graph := (w.graph.remove j).2, selected := none,
             entries := clearedEntries, entriesEnabled := false }

/-- A keystroke in one entry: tk accepts it only when the whole proposed
text passes `is_valid` and the entry box is enabled; the write then fires
`run_traces`, whose only registered observer is `entry_change_callback`
(the callback ignores the delivered value and re-reads all entries). -/
def editEntry (w : DebtWidget) (f : EntryField) (t : String) : DebtWidget :=
  let w1 := { w with entries := setField w.entries f t }
  if w1.tracesDisabled then w1 else entryChangeCallback w1

/-- States of the widget reachable through its event handlers: pick events
on existing lines, the add and delete buttons, and keystrokes (possible
only while the entry boxes are enabled, and only with `is_valid` text). -/
inductive Reach : DebtWidget → Prop where
  | init : Reach initWidget
  | add {w} : Reach w → Reach (addLine w)
  | click {w} : Reach w → ∀ i, i < w.graph.num_lines → Reach (swapSelected w i)
  | del {w} : Reach w → Reach (deleteLine w)
  | edit {w} : Reach w → ∀ f t, w.entriesEnabled = true → is_valid t = true →
      Reach (editEntry w f t)

/-! ## Derived predicates and checkers used by the claims -/

/-- Selection coherence: the `selected` index points at the unique line with
the SELECTED style; when it is `None`, every line is NORMAL. -/
def SelOK (g : LineGraph) : Option Nat → Prop
  | some i => i < g.num_lines ∧
      ∀ (j : Nat) (l : Line), g.lines[j]? = some l →
        (l.visual_state = VisualState.SELECTED ↔ j = i)
  | none => ∀ (j : Nat) (l : Line), g.lines[j]? = some l →
      l.visual_state = VisualState.NORMAL

/-- Selection coherence of a widget state. -/
def SelCoherent (w : DebtWidget) : Prop := SelOK w.graph w.selected

/-- Every plotted line's data was computed by the debt formula from its own
metadata, with positive natural parameters and `range(len(...))` x-data. -/
def ConsistentLine (l : Line) : Prop :=
  1 ≤ l.metadata.balance ∧ 1 ≤ l.metadata.payment ∧ 1 ≤ l.metadata.apr ∧
  calcClearedNat l.metadata.balance l.metadata.payment l.metadata.apr
    = .ok (l.ydata.length - 1, l.ydata) ∧
  l.xdata = rangeQ l.ydata.length

/-- The controller invariant maintained by every event handler. -/
def WInv (w : DebtWidget) : Prop :=
  SelCoherent w
  ∧ w.entriesEnabled = w.selected.isSome
  ∧ is_valid w.entries.balance = true
  ∧ is_valid w.entries.payment = true
  ∧ is_valid w.entries.apr = true
  ∧ ∀ l ∈ w.graph.lines, ConsistentLine l

/-- Fold a sequence of `plot` requests into the store, starting empty. -/
def plotFold (g : LineGraph) (reqs : List (DebtMeta × List ℚ × List ℚ)) : LineGraph :=
  reqs.foldl (fun g r => (g.plot r.1 r.2.1 r.2.2).2) g

/-- `True` exactly on an `ok` result. -/
def CalcResult.isOk {α : Type} : CalcResult α → Bool
  | .ok _ => true
  | _ => false

/-- The running-balance list of an `ok` result (`[]` otherwise). -/
def CalcResult.seqOf : CalcResult (Nat × List ℚ) → List ℚ
  | .ok r => r.2
  | _ => []

/-- Executable check that a list of rationals is strictly increasing. -/
def strictIncr : List ℚ → Bool
  | [] => true
  | [_] => true
  | x :: y :: t => decide (x < y) && strictIncr (y :: t)

/-! ## Helper lemmas about the store operations -/

theorem length_modifyLine (ls : List Line) (i : Nat) (f : Line → Line) :
    (modifyLine ls i f).length = ls.length := by
  unfold modifyLine
  cases h : ls[i]? with
  | none => rfl
  | some l => simp

theorem getElem?_modifyLine (ls : List Line) (i : Nat) (f : Line → Line) (j : Nat) :
    (modifyLine ls i f)[j]? = if j = i then (ls[j]?).map f else ls[j]? := by
  unfold modifyLine
  cases h : ls[i]? with
  | none =>
    rcases Decidable.em (j = i) with rfl | hne
    · simp [h]
    · simp [hne]
  | some l =>
    rcases Decidable.em (j = i) with rfl | hne
    · have hlt : j < ls.length := (List.getElem?_eq_some_iff.mp h).1
      simp [List.getElem?_set, hlt, h]
    · simp [List.getElem?_set, Ne.symm hne, hne]

theorem num_lines_select (g : LineGraph) (i : Nat) :
    ((g.select i).2).num_lines = g.num_lines := by
  by_cases hlt : i < g.lines.length
  · simp [LineGraph.select, LineGraph.num_lines, hlt, length_modifyLine]
  · simp [LineGraph.select, LineGraph.num_lines, hlt]

theorem num_lines_unselect (g : LineGraph) (i : Nat) :
    ((g.unselect i).2).num_lines = g.num_lines := by
  by_cases hlt : i < g.lines.length
  · simp [LineGraph.unselect, LineGraph.num_lines, hlt, length_modifyLine]
  · simp [LineGraph.unselect, LineGraph.num_lines, hlt]

theorem num_lines_update (g : LineGraph) (i : Nat) (x y : List ℚ) (m : DebtMeta) :
    ((g.update i x y m).2).num_lines = g.num_lines := by
  by_cases hlt : i < g.lines.length
  · simp [LineGraph.update, LineGraph.num_lines, hlt, length_modifyLine]
  · simp [LineGraph.update, LineGraph.num_lines, hlt]

theorem max_lines_select (g : LineGraph) (i : Nat) :
    ((g.select i).2).max_lines = g.max_lines := by
  by_cases hlt : i < g.lines.length
  · simp [LineGraph.select, LineGraph.num_lines, hlt]
  · simp [LineGraph.select, LineGraph.num_lines, hlt]

theorem max_lines_unselect (g : LineGraph) (i : Nat) :
    ((g.unselect i).2).max_lines = g.max_lines := by
  by_cases hlt : i < g.lines.length
  · simp [LineGraph.unselect, LineGraph.num_lines, hlt]
  · simp [LineGraph.unselect, LineGraph.num_lines, hlt]

theorem getElem?_select (g : LineGraph) (i : Nat) (hi : i < g.num_lines) (j : Nat) :
    ((g.select i).2).lines[j]? =
      if j = i then (g.lines[j]?).map (fun l => { l with style := selStyle }) else g.lines[j]? := by
  have hi' : i < g.lines.length := hi
  simp [LineGraph.select, LineGraph.num_lines, hi', getElem?_modifyLine]

theorem getElem?_unselect (g : LineGraph) (i : Nat) (hi : i < g.num_lines) (j : Nat) :
    ((g.unselect i).2).lines[j]? =
      if j = i then (g.lines[j]?).map (fun l => { l with style := normalStyle })
      else g.lines[j]? := by
  have hi' : i < g.lines.length := hi
  simp [LineGraph.unselect, LineGraph.num_lines, hi', getElem?_modifyLine]

theorem getElem?_update (g : LineGraph) (i : Nat) (x y : List ℚ) (m : DebtMeta)
    (hi : i < g.num_lines) (j : Nat) :
    ((g.update i x y m).2).lines[j]? =
      if j = i then (g.lines[j]?).map (fun l => { l with xdata := x, ydata := y, metadata := m })
      else g.lines[j]? := by
  have hi' : i < g.lines.length := hi
  simp [LineGraph.update, LineGraph.num_lines, hi', getElem?_modifyLine]

theorem visual_state_selStyle (l : Line) :
    (Line.visual_state { l with style := selStyle }) = VisualState.SELECTED := by
  simp [Line.visual_state]

theorem visual_state_normalStyle (l : Line) :
    (Line.visual_state { l with style := normalStyle }) = VisualState.NORMAL := by
  have : normalStyle ≠ selStyle := by decide
  simp [Line.visual_state, this]

/-! ## Digit-string lemmas: `natStr`, `pyInt`, `is_valid` -/

theorem digitChar_spec : ∀ d, d < 10 →
    (Nat.digitChar d).isDigit = true ∧ (Nat.digitChar d).toNat - 48 = d ∧
    (Nat.digitChar d = '0' ↔ d = 0) := by decide

theorem foldl_digit_chars (l : List Nat) (hl : ∀ d ∈ l, d < 10) (a : Nat) :
    ((l.map Nat.digitChar).reverse).foldl (fun acc c => 10 * acc + (c.toNat - 48)) a
      = a * 10 ^ l.length + Nat.ofDigits 10 l := by
  induction l generalizing a with
  | nil => simp
  | cons d t ih =>
    have hd : d < 10 := hl d (by simp)
    have ht : ∀ x ∈ t, x < 10 := fun x hx => hl x (by simp [hx])
    have hchar : (Nat.digitChar d).toNat - 48 = d := (digitChar_spec d hd).2.1
    simp only [List.map_cons, List.reverse_cons, List.foldl_append, List.foldl_cons,
      List.foldl_nil, ih ht, Nat.ofDigits_cons, List.length_cons, hchar]
    ring

theorem pyInt_natStr (n : Nat) : pyInt (natStr n) = n := by
  by_cases h0 : n = 0
  · subst h0; rfl
  · have hd : ∀ d ∈ Nat.digits 10 n, d < 10 :=
      fun d hdm => Nat.digits_lt_base (by norm_num) hdm
    unfold natStr pyInt
    rw [if_neg h0]
    simpa [Nat.ofDigits_digits] using foldl_digit_chars (Nat.digits 10 n) hd 0

theorem natStr_ne_empty (n : Nat) : natStr n ≠ "" := by
  by_cases h0 : n = 0
  · subst h0; decide
  · unfold natStr
    rw [if_neg h0]
    intro hcon
    have hdata : ((Nat.digits 10 n).map Nat.digitChar).reverse = [] :=
      congrArg String.data hcon
    have : Nat.digits 10 n = [] := by simpa using hdata
    exact h0 (Nat.digits_eq_nil_iff_eq_zero.mp this)

theorem natStr_valid (n : Nat) (hn : 0 < n) : is_valid (natStr n) = true := by
  have h0 : n ≠ 0 := Nat.pos_iff_ne_zero.mp hn
  have hdig : ∀ d ∈ Nat.digits 10 n, d < 10 :=
    fun d hdm => Nat.digits_lt_base (by norm_num) hdm
  have hnil : Nat.digits 10 n ≠ [] := Nat.digits_ne_nil_iff_ne_zero.mpr h0
  have hdata : (natStr n).data = ((Nat.digits 10 n).map Nat.digitChar).reverse := by
    unfold natStr; rw [if_neg h0]
  have hne : (natStr n).data ≠ [] := by
    rw [hdata]; simpa using hnil
  obtain ⟨c, rest, hcr⟩ := List.exists_cons_of_ne_nil hne
  have hcmem : ∀ ch ∈ (natStr n).data, ch.isDigit = true := by
    intro ch hch
    rw [hdata] at hch
    rw [List.mem_reverse, List.mem_map] at hch
    obtain ⟨d, hdm, rfl⟩ := hch
    exact (digitChar_spec d (hdig d hdm)).1
  have hchead : c ≠ '0' := by
    have hhead : (natStr n).data.head? = some c := by rw [hcr]; rfl
    rw [hdata, List.head?_reverse] at hhead
    have hlast : ((Nat.digits 10 n).map Nat.digitChar).getLast? =
        some (Nat.digitChar ((Nat.digits 10 n).getLast hnil)) := by
      rw [List.getLast?_eq_getLast _ (by simpa using hnil)]
      simp [List.getLast_map]
    rw [hlast] at hhead
    have hc : c = Nat.digitChar ((Nat.digits 10 n).getLast hnil) := by
      exact (Option.some_injective _ hhead).symm
    have hdlast : (Nat.digits 10 n).getLast hnil ≠ 0 := Nat.getLast_digit_ne_zero 10 h0
    have hdlt : (Nat.digits 10 n).getLast hnil < 10 :=
      hdig _ (List.getLast_mem hnil)
    intro hcon
    exact hdlast (((digitChar_spec _ hdlt).2.2).mp (hc ▸ hcon))
  unfold is_valid
  rw [hcr]
  simp only [Bool.and_eq_true, decide_eq_true_eq, List.all_eq_true]
  refine ⟨by simpa using hchead, ?_⟩
  intro ch hch
  exact hcmem ch (hcr ▸ hch)

theorem parseVal_natStr (n : Nat) : parseVal (natStr n) = some n := by
  unfold parseVal
  rw [if_neg (natStr_ne_empty n), pyInt_natStr]

theorem foldl_pyInt_ge (l : List Char) (a : Nat) :
    a ≤ l.foldl (fun acc c => 10 * acc + (c.toNat - 48)) a := by
  induction l generalizing a with
  | nil => simp
  | cons c t ih =>
    calc a ≤ 10 * a + (c.toNat - 48) := by omega
    _ ≤ _ := by simpa using ih (10 * a + (c.toNat - 48))

theorem char_digit_bounds (c : Char) (h : c.isDigit = true) :
    48 ≤ c.toNat ∧ c.toNat ≤ 57 := by
  simp only [Char.isDigit, Bool.and_eq_true, decide_eq_true_eq, ge_iff_le] at h
  obtain ⟨h1, h2⟩ := h
  have g1 : (48 : UInt32).toNat ≤ c.val.toNat := h1
  have g2 : c.val.toNat ≤ (57 : UInt32).toNat := h2
  exact ⟨g1, g2⟩

theorem one_le_pyInt (s : String) (hv : is_valid s = true) (hne : s ≠ "") :
    1 ≤ pyInt s := by
  have hdne : s.data ≠ [] := by
    intro hcon
    exact hne (by cases s; simp_all)
  obtain ⟨c, rest, hcr⟩ := List.exists_cons_of_ne_nil hdne
  unfold is_valid at hv
  rw [hcr] at hv
  simp only [Bool.and_eq_true, decide_eq_true_eq, List.all_eq_true] at hv
  have hcd : c.isDigit = true := hv.2 c (by simp)
  have hc0 : c ≠ '0' := by simpa using hv.1
  have hbounds := char_digit_bounds c hcd
  have hge : 49 ≤ c.toNat := by
    have h48 : c.toNat ≠ 48 := by
      intro hcon
      exact hc0 (Char.ext (UInt32.ext hcon))
    omega
  unfold pyInt
  rw [hcr]
  simp only [List.foldl_cons]
  calc 1 ≤ 10 * 0 + (c.toNat - 48) := by omega
  _ ≤ _ := foldl_pyInt_ge rest _

/-! ## Behaviour of the debt-payoff loop -/

theorem clearedLoop_terminates (p a δ : ℚ) (ha : 0 ≤ a) (hδ : 0 < δ) :
    ∀ (fuel : Nat) (b : ℚ), δ ≤ p - a * b / 1200 → b ≤ fuel * δ →
    ∃ seq, clearedLoop p a fuel b = some seq
      ∧ seq.Chain' (fun x y => y ≤ x)
      ∧ seq.getLast? = some 0
      ∧ (0 < b → seq.head? = some b ∧ 2 ≤ seq.length)
      ∧ (¬ 0 < b → seq = [0]) := by
  intro fuel
  induction fuel with
  | zero =>
    intro b hδb hble
    have hb : ¬ 0 < b := by
      intro hcon
      rw [Nat.cast_zero, zero_mul] at hble
      linarith
    exact ⟨[0], by simp [clearedLoop, hb], by simp, by simp, fun hcon => absurd hcon hb,
      fun _ => rfl⟩
  | succ f ih =>
    intro b hδb hble
    by_cases hb : 0 < b
    · have hdec : b + a * b / 1200 - p ≤ b - δ := by linarith
      have hb'le : b + a * b / 1200 - p ≤ b := by linarith
      have hδb' : δ ≤ p - a * (b + a * b / 1200 - p) / 1200 := by
        have h1 : a * (b + a * b / 1200 - p) ≤ a * b := mul_le_mul_of_nonneg_left hb'le ha
        have h2 : a * (b + a * b / 1200 - p) / 1200 ≤ a * b / 1200 :=
          (div_le_div_right (by norm_num : (0 : ℚ) < 1200)).mpr h1
        linarith
      have hble' : b + a * b / 1200 - p ≤ (f : ℚ) * δ := by
        have hcast : ((f + 1 : ℕ) : ℚ) = (f : ℚ) + 1 := by push_cast; ring
        rw [hcast] at hble
        nlinarith
      obtain ⟨seq', hsome, hchain, hlast, hpos, hnonpos⟩ := ih _ hδb' hble'
      have hne : seq' ≠ [] := by
        intro hcon
        rw [hcon] at hlast
        simp at hlast
      refine ⟨b :: seq', ?_, ?_, ?_, ?_, ?_⟩
      · simp [clearedLoop, hb, hsome]
      · rw [List.chain'_cons']
        refine ⟨?_, hchain⟩
        intro y hy
        by_cases hb' : 0 < b + a * b / 1200 - p
        · rw [(hpos hb').1] at hy
          simp at hy
          subst hy
          linarith
        · rw [hnonpos hb'] at hy
          simp at hy
          subst hy
          linarith
      · obtain ⟨x, xs, rfl⟩ := List.exists_cons_of_ne_nil hne
        rw [List.getLast?_cons_cons]
        exact hlast
      · intro _
        refine ⟨rfl, ?_⟩
        have : 1 ≤ seq'.length := List.length_pos.mpr hne
        simp only [List.length_cons]
        omega
      · intro hcon
        exact absurd hb hcon
    · exact ⟨[0], by simp [clearedLoop, hb], by simp, by simp, fun hcon => absurd hcon hb,
        fun _ => rfl⟩

/-- If the domain check passes with `apr ≥ 0`, an explicit fuel bound that
makes the loop finish: the balance drops by at least
`δ = payment - apr * balance / 1200` every month. -/
theorem clearedLoop_terminates_of_pos (b p a : ℚ) (ha : 0 ≤ a) (hp : a * b / 1200 < p) :
    ∃ fuel seq, clearedLoop p a fuel b = some seq
      ∧ seq.Chain' (fun x y => y ≤ x)
      ∧ seq.getLast? = some 0
      ∧ (0 < b → seq.head? = some b ∧ 2 ≤ seq.length) := by
  set δ := p - a * b / 1200 with hδdef
  have hδ : 0 < δ := by rw [hδdef]; linarith
  by_cases hb : 0 < b
  · refine ⟨(⌈b / δ⌉).toNat, ?_⟩
    have hceil : b ≤ ((⌈b / δ⌉).toNat : ℚ) * δ := by
      have h1 : b / δ ≤ (⌈b / δ⌉ : ℚ) := Int.le_ceil _
      have h2 : (0 : ℤ) ≤ ⌈b / δ⌉ := by
        have : (0 : ℚ) ≤ b / δ := le_of_lt (div_pos hb hδ)
        exact_mod_cast Int.ceil_nonneg this
      have h3 : (((⌈b / δ⌉).toNat : ℤ) : ℚ) = ((⌈b / δ⌉ : ℤ) : ℚ) := by
        exact_mod_cast congrArg Int.cast (Int.toNat_of_nonneg h2)
      have h4 : b / δ ≤ ((⌈b / δ⌉).toNat : ℚ) := by
        rw [show (((⌈b / δ⌉).toNat : ℕ) : ℚ) = (((⌈b / δ⌉).toNat : ℤ) : ℚ) by push_cast; ring,
          h3]
        exact h1
      calc b = b / δ * δ := by field_simp
      _ ≤ ((⌈b / δ⌉).toNat : ℚ) * δ := by
        exact mul_le_mul_of_nonneg_right h4 (le_of_lt hδ)
    obtain ⟨seq, hsome, hchain, hlast, hpos, _⟩ :=
      clearedLoop_terminates p a δ ha hδ (⌈b / δ⌉).toNat b (le_of_eq hδdef.symm) hceil
    exact ⟨seq, hsome, hchain, hlast, hpos⟩
  · refine ⟨0, [0], ?_, by simp, by simp, fun hcon => absurd hcon hb⟩
    simp [clearedLoop, hb]

/-- Example of the latent non-termination: with `apr = -600` and
`payment = 0` the balance halves every month and never reaches `0`. -/
theorem clearedLoop_half_none : ∀ (f : Nat) (b : ℚ), 0 < b →
    clearedLoop 0 (-600) f b = none := by
  intro f
  induction f with
  | zero =>
    intro b hb
    simp [clearedLoop, hb]
  | succ f ih =>
    intro b hb
    have hhalf : (0 : ℚ) < b / 2 := by linarith
    have hstep : b + -(600 * b) / 1200 = b / 2 := by ring
    simp [clearedLoop, hb, hstep, ih (b / 2) hhalf]

/-- Second latent non-termination: with `apr = -1200` and `payment = -500`
the balance reaches the fixed point `500` after one month. -/
theorem clearedLoop_fix_none : ∀ f : Nat, clearedLoop (-500) (-1200) f 500 = none := by
  intro f
  induction f with
  | zero => simp [clearedLoop]
  | succ f ih =>
    have hstep : (500 : ℚ) + -(1200 * 500) / 1200 + 500 = 500 := by norm_num
    simp [clearedLoop, hstep, ih]

/-! ## Characterisation of `plot` and of successful formula calls -/

theorem plot_full (g : LineGraph) (m : DebtMeta) (x y : List ℚ)
    (h : g.num_lines = g.max_lines) : g.plot m x y = (false, g) := by
  unfold LineGraph.plot
  rw [if_pos h]

theorem unselect_last_append (mx : Nat) (ls : List Line) (nl : Line) :
    ((LineGraph.mk mx (ls ++ [nl])).unselect ((ls ++ [nl]).length - 1)).2
      = LineGraph.mk mx (ls ++ [{ nl with style := normalStyle }]) := by
  unfold LineGraph.unselect
  have hlt : (ls ++ [nl]).length - 1 < (LineGraph.mk mx (ls ++ [nl])).num_lines := by
    simp [LineGraph.num_lines]
  rw [if_pos hlt]
  simp only []
  unfold modifyLine
  have hidx : (ls ++ [nl]).length - 1 = ls.length := by simp
  rw [hidx]
  rw [List.getElem?_concat_length]
  dsimp only
  rw [List.set_append_right _ _ (le_refl _), Nat.sub_self]
  rfl

theorem plot_spec (g : LineGraph) (m : DebtMeta) (x y : List ℚ)
    (h : g.num_lines ≠ g.max_lines) :
    (g.plot m x y).1 = true
      ∧ (g.plot m x y).2.lines = g.lines ++ [⟨normalStyle, m, x, y⟩]
      ∧ (g.plot m x y).2.max_lines = g.max_lines := by
  unfold LineGraph.plot
  rw [if_neg h]
  have key := unselect_last_append g.max_lines g.lines (Line.mk defStyle m x y)
  refine ⟨rfl, ?_, ?_⟩
  · show (((LineGraph.mk g.max_lines (g.lines ++ [Line.mk defStyle m x y])).unselect
      ((LineGraph.mk g.max_lines (g.lines ++ [Line.mk defStyle m x y])).num_lines - 1)).2).lines
        = _
    rw [show (LineGraph.mk g.max_lines (g.lines ++ [Line.mk defStyle m x y])).num_lines
      = (g.lines ++ [Line.mk defStyle m x y]).length from rfl]
    rw [key]
  · show (((LineGraph.mk g.max_lines (g.lines ++ [Line.mk defStyle m x y])).unselect
      ((LineGraph.mk g.max_lines (g.lines ++ [Line.mk defStyle m x y])).num_lines - 1)).2).max_lines
        = _
    rw [show (LineGraph.mk g.max_lines (g.lines ++ [Line.mk defStyle m x y])).num_lines
      = (g.lines ++ [Line.mk defStyle m x y]).length from rfl]
    rw [key]

theorem calc_ok_shape (fuel : Nat) (bo po ao : Option ℚ) (n : Nat) (seq : List ℚ)
    (h : calc_time_until_cleared fuel bo po ao = .ok (n, seq)) :
    n = seq.length - 1 := by
  cases bo with
  | none => simp [calc_time_until_cleared] at h
  | some b =>
    cases po with
    | none => simp [calc_time_until_cleared] at h
    | some p =>
      cases ao with
      | none => simp [calc_time_until_cleared] at h
      | some a =>
        unfold calc_time_until_cleared at h
        dsimp only at h
        by_cases hdom : p ≤ a * b / 1200
        · rw [if_pos hdom] at h
          exact absurd h (by simp)
        · rw [if_neg hdom] at h
          cases hl : clearedLoop p a fuel b with
          | none => rw [hl] at h; exact absurd h (by simp)
          | some s =>
            rw [hl] at h
            simp only [CalcResult.ok.injEq, Prod.mk.injEq] at h
            rw [h.2] at h
            exact h.1.symm

theorem calc_ok_domain (fuel : Nat) (b p a : ℚ) (n : Nat) (seq : List ℚ)
    (h : calc_time_until_cleared fuel (some b) (some p) (some a) = .ok (n, seq)) :
    a * b / 1200 < p := by
  unfold calc_time_until_cleared at h
  dsimp only at h
  by_cases hdom : p ≤ a * b / 1200
  · rw [if_pos hdom] at h
    exact absurd h (by simp)
  · exact lt_of_not_le hdom

/-! ## The controller invariant -/

theorem visual_state_iff_selStyle (l : Line) :
    l.visual_state = VisualState.SELECTED ↔ l.style = selStyle := by
  unfold Line.visual_state
  by_cases h : l.style = selStyle <;> simp [h]

theorem visual_state_normal_iff (l : Line) :
    l.visual_state = VisualState.NORMAL ↔ l.style ≠ selStyle := by
  unfold Line.visual_state
  by_cases h : l.style = selStyle <;> simp [h]


theorem winv_init : WInv initWidget := by
  refine ⟨?_, rfl, rfl, rfl, rfl, ?_⟩
  · show SelOK initWidget.graph initWidget.selected
    intro j l h
    simp [initWidget] at h
  · intro l h
    simp [initWidget] at h

theorem visual_state_not_selected (l : Line) (h : l.visual_state ≠ VisualState.SELECTED) :
    l.visual_state = VisualState.NORMAL := by
  cases hv : l.visual_state with
  | NORMAL => rfl
  | SELECTED => exact absurd hv h

theorem consistent_ignores_style (l : Line) (st : LineStyle) (h : ConsistentLine l) :
    ConsistentLine { l with style := st } := h

theorem consistent_modify_style (ls : List Line) (i : Nat) (st : LineStyle)
    (h : ∀ l ∈ ls, ConsistentLine l) :
    ∀ l ∈ modifyLine ls i (fun l => { l with style := st }), ConsistentLine l := by
  intro l hl
  unfold modifyLine at hl
  cases hg : ls[i]? with
  | none => rw [hg] at hl; exact h l hl
  | some l0 =>
    rw [hg] at hl
    rcases List.mem_or_eq_of_mem_set hl with hmem | rfl
    · exact h l hmem
    · exact consistent_ignores_style l0 st (h l0 (List.getElem?_mem hg))

theorem lines_select (g : LineGraph) (i : Nat) (hi : i < g.num_lines) :
    ((g.select i).2).lines = modifyLine g.lines i (fun l => { l with style := selStyle }) := by
  unfold LineGraph.select
  rw [if_pos hi]

theorem lines_unselect (g : LineGraph) (i : Nat) (hi : i < g.num_lines) :
    ((g.unselect i).2).lines = modifyLine g.lines i (fun l => { l with style := normalStyle }) := by
  unfold LineGraph.unselect
  rw [if_pos hi]

theorem lines_update (g : LineGraph) (i : Nat) (x y : List ℚ) (m : DebtMeta)
    (hi : i < g.num_lines) :
    ((g.update i x y m).2).lines
      = modifyLine g.lines i (fun l => { l with xdata := x, ydata := y, metadata := m }) := by
  unfold LineGraph.update
  rw [if_pos hi]

theorem setEntryText_empty_valid (t : String) : is_valid (setEntryText "" t) = true := by
  unfold setEntryText
  by_cases h : is_valid t = true
  · rw [if_pos h]; exact h
  · rw [if_neg h]; rfl

theorem loadEntries_valid (m : DebtMeta) :
    is_valid (loadEntries m).balance = true ∧ is_valid (loadEntries m).payment = true
      ∧ is_valid (loadEntries m).apr = true :=
  ⟨setEntryText_empty_valid _, setEntryText_empty_valid _, setEntryText_empty_valid _⟩

/-! ## Preservation of the invariant by each event handler -/

theorem winv_add (w : DebtWidget) (hw : WInv w) : WInv (addLine w) := by
  obtain ⟨hsel, hen, hvb, hvp, hva, hcons⟩ := hw
  cases hcalc : calcClearedNat 1000 25 25 with
  | ok r =>
    obtain ⟨n, seq⟩ := r
    have hshape : n = seq.length - 1 := calc_ok_shape _ _ _ _ _ _ hcalc
    subst hshape
    by_cases hcap : w.graph.num_lines = w.graph.max_lines
    · have hplot := plot_full w.graph ⟨1000, 25, 25⟩ (rangeQ seq.length) seq hcap
      simp only [addLine, hcalc, hplot]
      exact ⟨hsel, hen, hvb, hvp, hva, hcons⟩
    · obtain ⟨-, hlines, -⟩ := plot_spec w.graph ⟨1000, 25, 25⟩ (rangeQ seq.length) seq hcap
      simp only [addLine, hcalc]
      set nl : Line := ⟨normalStyle, ⟨1000, 25, 25⟩, rangeQ seq.length, seq⟩ with hnl
      have hnlvs : nl.visual_state = VisualState.NORMAL := by
        rw [visual_state_normal_iff]
        show ¬ normalStyle = selStyle
        decide
      have hlen : ((w.graph.plot ⟨1000, 25, 25⟩ (rangeQ seq.length) seq).2).num_lines
          = w.graph.num_lines + 1 := by
        simp [LineGraph.num_lines, hlines]
      refine ⟨?_, hen, hvb, hvp, hva, ?_⟩
      · show SelOK _ w.selected
        cases hselv : w.selected with
        | none =>
          intro j l hj
          rw [hlines, List.getElem?_append] at hj
          by_cases hjlt : j < w.graph.lines.length
          · rw [if_pos hjlt] at hj
            have hsel' : SelOK w.graph none := by
              have h0 : SelOK w.graph w.selected := hsel
              rwa [hselv] at h0
            exact hsel' j l hj
          · rw [if_neg hjlt] at hj
            have : l = nl := by
              rcases List.getElem?_mem hj with hm
            -- l ∈ [nl]
              simpa using hm
            rw [this]
            exact hnlvs
        | some i =>
          have hsel' : SelOK w.graph (some i) := by
            have h0 : SelOK w.graph w.selected := hsel
            rwa [hselv] at h0
          obtain ⟨hilt, hpt⟩ := hsel'
          refine ⟨by rw [hlen]; omega, ?_⟩
          intro j l hj
          rw [hlines, List.getElem?_append] at hj
          by_cases hjlt : j < w.graph.lines.length
          · rw [if_pos hjlt] at hj
            exact hpt j l hj
          · rw [if_neg hjlt] at hj
            have hli : l = nl := by
              rcases List.getElem?_mem hj with hm
              simpa using hm
            rw [hli, hnlvs]
            constructor
            · intro hcon; exact absurd hcon (by simp)
            · intro hji
              exfalso
              have : i < w.graph.lines.length := hilt
              omega
      · intro l hl
        rw [hlines] at hl
        rcases List.mem_append.mp hl with hm | hm
        · exact hcons l hm
        · have : l = nl := by simpa using hm
          rw [this]
          refine ⟨by norm_num, by norm_num, by norm_num, ?_, rfl⟩
          exact hcalc
  | typeMismatch => simp only [addLine, hcalc]; exact ⟨hsel, hen, hvb, hvp, hva, hcons⟩
  | domainInvalid => simp only [addLine, hcalc]; exact ⟨hsel, hen, hvb, hvp, hva, hcons⟩
  | zeroDivision => simp only [addLine, hcalc]; exact ⟨hsel, hen, hvb, hvp, hva, hcons⟩
  | outOfFuel => simp only [addLine, hcalc]; exact ⟨hsel, hen, hvb, hvp, hva, hcons⟩

theorem selok_select (g : LineGraph) (i : Nat) (hi : i < g.num_lines)
    (hall : ∀ (j : Nat) (l : Line), g.lines[j]? = some l →
      l.visual_state = VisualState.NORMAL) :
    SelOK ((g.select i).2) (some i) := by
  refine ⟨by rw [num_lines_select]; exact hi, ?_⟩
  intro j l hj
  rw [getElem?_select g i hi j] at hj
  by_cases hji : j = i
  · subst hji
    rw [if_pos rfl] at hj
    cases hg : g.lines[j]? with
    | none => rw [hg] at hj; simp at hj
    | some l0 =>
      rw [hg] at hj
      simp only [Option.map_some'] at hj
      have hl : l = { l0 with style := selStyle } := by
        exact (Option.some_injective _ hj).symm
      rw [hl]
      simp [visual_state_selStyle]
  · rw [if_neg hji] at hj
    have hnorm := hall j l hj
    constructor
    · intro hcon
      rw [hnorm] at hcon
      exact absurd hcon (by simp)
    · intro hcon
      exact absurd hcon hji

theorem selok_unselect_all_normal (g : LineGraph) (j0 : Nat) (hs : SelOK g (some j0)) :
    ∀ (k : Nat) (l : Line), ((g.unselect j0).2).lines[k]? = some l →
      l.visual_state = VisualState.NORMAL := by
  obtain ⟨hj0, hpt⟩ := hs
  intro k l hk
  rw [getElem?_unselect g j0 hj0 k] at hk
  by_cases hkj : k = j0
  · subst hkj
    rw [if_pos rfl] at hk
    cases hg : g.lines[k]? with
    | none => rw [hg] at hk; simp at hk
    | some l0 =>
      rw [hg] at hk
      simp only [Option.map_some'] at hk
      have hl : l = { l0 with style := normalStyle } := by
        exact (Option.some_injective _ hk).symm
      rw [hl]
      exact visual_state_normalStyle l0
  · rw [if_neg hkj] at hk
    have hiff := hpt k l hk
    exact visual_state_not_selected l (fun hcon => hkj (hiff.mp hcon))

theorem winv_click (w : DebtWidget) (hw : WInv w) (i : Nat) (hi : i < w.graph.num_lines) :
    WInv (swapSelected w i) := by
  obtain ⟨g, sel, ent, ee, td⟩ := w
  obtain ⟨hsel, hen, hvb, hvp, hva, hcons⟩ := hw
  have hsel0 : SelOK g sel := hsel
  cases sel with
  | none =>
    dsimp only [swapSelected]
    refine ⟨?_, rfl, (loadEntries_valid _).1, (loadEntries_valid _).2.1,
      (loadEntries_valid _).2.2, ?_⟩
    · show SelOK ((g.select i).2) (some i)
      exact selok_select g i hi hsel0
    · intro l hl
      rw [lines_select g i hi] at hl
      exact consistent_modify_style _ _ _ hcons l hl
  | some j =>
    dsimp only [swapSelected]
    by_cases hji : j = i
    · subst hji
      rw [if_pos rfl]
      refine ⟨?_, rfl, rfl, rfl, rfl, ?_⟩
      · show SelOK ((g.unselect j).2) none
        exact selok_unselect_all_normal g j hsel0
      · intro l hl
        rw [lines_unselect g j hsel0.1] at hl
        exact consistent_modify_style _ _ _ hcons l hl
    · rw [if_neg hji]
      have hall := selok_unselect_all_normal g j hsel0
      have hi' : i < ((g.unselect j).2).num_lines := by
        rw [num_lines_unselect]; exact hi
      refine ⟨?_, rfl, (loadEntries_valid _).1, (loadEntries_valid _).2.1,
        (loadEntries_valid _).2.2, ?_⟩
      · show SelOK ((((g.unselect j).2).select i).2) (some i)
        exact selok_select _ i hi' hall
      · intro l hl
        rw [lines_select _ i hi'] at hl
        refine consistent_modify_style _ _ _ ?_ l hl
        intro l1 hl1
        rw [lines_unselect g j hsel0.1] at hl1
        exact consistent_modify_style _ _ _ hcons l1 hl1

theorem winv_del (w : DebtWidget) (hw : WInv w) : WInv (deleteLine w) := by
  obtain ⟨g, sel, ent, ee, td⟩ := w
  obtain ⟨hsel, hen, hvb, hvp, hva, hcons⟩ := hw
  have hsel0 : SelOK g sel := hsel
  cases sel with
  | none => exact ⟨hsel0, hen, hvb, hvp, hva, hcons⟩
  | some j =>
    obtain ⟨hjlt, hpt⟩ := hsel0
    dsimp only [deleteLine]
    have hlines : ((g.remove j).2).lines = g.lines.eraseIdx j := by
      unfold LineGraph.remove
      rw [if_pos hjlt]
    refine ⟨?_, rfl, rfl, rfl, rfl, ?_⟩
    · show SelOK ((g.remove j).2) none
      intro k l hk
      rw [hlines, List.getElem?_eraseIdx] at hk
      by_cases hkj : k < j
      · rw [if_pos hkj] at hk
        have hiff := hpt k l hk
        refine visual_state_not_selected l (fun hcon => ?_)
        have hkeq : k = j := hiff.mp hcon
        omega
      · rw [if_neg hkj] at hk
        have hiff := hpt (k + 1) l hk
        refine visual_state_not_selected l (fun hcon => ?_)
        have : k + 1 = j := hiff.mp hcon
        omega
    · intro l hl
      rw [hlines] at hl
      exact hcons l ((List.eraseIdx_sublist g.lines j).mem hl)

theorem parseVal_pos (s : String) (n : Nat) (hv : is_valid s = true)
    (h : parseVal s = some n) : 1 ≤ n := by
  unfold parseVal at h
  by_cases he : s = ""
  · rw [if_pos he] at h
    exact absurd h (by simp)
  · rw [if_neg he] at h
    have hle := one_le_pyInt s hv he
    have : pyInt s = n := by
      exact Option.some_injective _ h
    omega

theorem winv_callback (w : DebtWidget) (hw : WInv w) : WInv (entryChangeCallback w) := by
  obtain ⟨g, sel, ent, ee, td⟩ := w
  obtain ⟨hsel, hen, hvb, hvp, hva, hcons⟩ := hw
  have hsel0 : SelOK g sel := hsel
  unfold entryChangeCallback
  dsimp only
  cases hb : parseVal ent.balance with
  | none => exact ⟨hsel, hen, hvb, hvp, hva, hcons⟩
  | some b =>
    cases hp : parseVal ent.payment with
    | none => exact ⟨hsel, hen, hvb, hvp, hva, hcons⟩
    | some p =>
      cases ha : parseVal ent.apr with
      | none => exact ⟨hsel, hen, hvb, hvp, hva, hcons⟩
      | some a =>
        dsimp only
        cases hcalc : calcClearedNat b p a with
        | typeMismatch => exact ⟨hsel, hen, hvb, hvp, hva, hcons⟩
        | domainInvalid => exact ⟨hsel, hen, hvb, hvp, hva, hcons⟩
        | zeroDivision => exact ⟨hsel, hen, hvb, hvp, hva, hcons⟩
        | outOfFuel => exact ⟨hsel, hen, hvb, hvp, hva, hcons⟩
        | ok r =>
          obtain ⟨n, seq⟩ := r
          have hshape : n = seq.length - 1 := calc_ok_shape _ _ _ _ _ _ hcalc
          subst hshape
          dsimp only
          cases sel with
          | none => exact ⟨hsel0, hen, hvb, hvp, hva, hcons⟩
          | some i =>
            obtain ⟨hilt, hpt⟩ := hsel0
            dsimp only
            refine ⟨?_, hen, hvb, hvp, hva, ?_⟩
            · show SelOK ((g.update i (rangeQ seq.length) seq ⟨b, p, a⟩).2) (some i)
              refine ⟨by rw [num_lines_update]; exact hilt, ?_⟩
              intro j l hj
              rw [getElem?_update g i _ _ _ hilt j] at hj
              by_cases hji : j = i
              · subst hji
                rw [if_pos rfl] at hj
                cases hg : g.lines[j]? with
                | none => rw [hg] at hj; simp at hj
                | some l0 =>
                  rw [hg] at hj
                  simp only [Option.map_some'] at hj
                  have hl := (Option.some_injective _ hj).symm
                  have hvs : l.visual_state = l0.visual_state := by rw [hl]; rfl
                  rw [hvs]
                  exact hpt j l0 hg
              · rw [if_neg hji] at hj
                exact hpt j l hj
            · intro l hl
              rw [lines_update g i _ _ _ hilt] at hl
              unfold modifyLine at hl
              cases hg : g.lines[i]? with
              | none => rw [hg] at hl; exact hcons l hl
              | some l0 =>
                rw [hg] at hl
                rcases List.mem_or_eq_of_mem_set hl with hmem | rfl
                · exact hcons l hmem
                · refine ⟨parseVal_pos _ _ hvb hb, parseVal_pos _ _ hvp hp,
                    parseVal_pos _ _ hva ha, ?_, rfl⟩
                  exact hcalc

theorem winv_edit (w : DebtWidget) (hw : WInv w) (f : EntryField) (t : String)
    (ht : is_valid t = true) : WInv (editEntry w f t) := by
  obtain ⟨g, sel, ent, ee, td⟩ := w
  obtain ⟨hsel, hen, hvb, hvp, hva, hcons⟩ := hw
  have hw1 : WInv ⟨g, sel, setField ent f t, ee, td⟩ := by
    refine ⟨hsel, hen, ?_, ?_, ?_, hcons⟩ <;> cases f <;>
      first | exact ht | exact hvb | exact hvp | exact hva
  cases td with
  | true => exact hw1
  | false => exact winv_callback _ hw1

theorem reach_winv (w : DebtWidget) (hw : Reach w) : WInv w := by
  induction hw with
  | init => exact winv_init
  | add _ ih => exact winv_add _ ih
  | click _ i hi ih => exact winv_click _ ih i hi
  | del _ ih => exact winv_del _ ih
  | edit _ f t hee ht ih => exact winv_edit _ ih f t ht

/-! ## The pub/sub backup-value invariant -/

theorem parseVal_eq_none (t : String) : parseVal t = none ↔ t = "" := by
  unfold parseVal
  by_cases ht : t = ""
  · rw [if_pos ht]; simp [ht]
  · rw [if_neg ht]; simp [ht]

theorem lastNonempty_append_pair (acc : List (String × Nat)) (t : String) (v : Nat) :
    lastNonempty (acc ++ [(t, v)]) = if t = "" then lastNonempty acc else v := by
  unfold lastNonempty
  rw [List.filter_append]
  by_cases ht : t = ""
  · rw [if_pos ht]
    have hemp : List.filter (fun q => decide (q.1 ≠ "")) [(t, v)] = [] := by simp [ht]
    rw [hemp, List.append_nil]
  · rw [if_neg ht]
    have hkeep : List.filter (fun q => decide (q.1 ≠ "")) [(t, v)] = [(t, v)] := by simp [ht]
    rw [hkeep, List.getLast?_concat]
    rfl

theorem entryRun_backup (es : List EntryEvent) :
    ∀ (s : EntryModel) (acc : List (String × Nat)), s.backup = lastNonempty acc →
    ((entryRun s es).1).backup = lastNonempty (acc ++ (entryRun s es).2) := by
  induction es with
  | nil =>
    intro s acc h
    dsimp only [entryRun]
    simpa using h
  | cons e es ih =>
    intro s acc h
    cases e with
    | enableTr =>
      dsimp only [entryRun, entryStep]
      exact ih { s with disabled := false } acc h
    | disableTr =>
      dsimp only [entryRun, entryStep]
      exact ih { s with disabled := true } acc h
    | write t =>
      dsimp only [entryRun, entryStep]
      by_cases hd : s.disabled = true
      · have hrt : run_traces { s with text := t } = ({ s with text := t }, none) := by
          simp [run_traces, hd]
        rw [hrt]
        exact ih { s with text := t } acc h
      · rw [Bool.not_eq_true] at hd
        cases hpv : parseVal t with
        | none =>
          have hrt : run_traces { s with text := t }
              = ({ s with text := t }, some s.backup) := by
            simp [run_traces, hd, hpv]
          rw [hrt]
          dsimp only
          have ht : t = "" := (parseVal_eq_none t).mp hpv
          have hacc : ({ s with text := t } : EntryModel).backup
              = lastNonempty (acc ++ [(t, s.backup)]) := by
            rw [lastNonempty_append_pair, if_pos ht]
            exact h
          have hrec := ih { s with text := t } (acc ++ [(t, s.backup)]) hacc
          rw [List.append_assoc] at hrec
          simpa using hrec
        | some v =>
          have hrt : run_traces { s with text := t }
              = ({ s with text := t, backup := v }, some v) := by
            simp [run_traces, hd, hpv]
          rw [hrt]
          dsimp only
          have ht : t ≠ "" := by
            intro hcon
            rw [(parseVal_eq_none t).mpr hcon] at hpv
            exact Option.noConfusion hpv
          have hacc : ({ s with text := t, backup := v } : EntryModel).backup
              = lastNonempty (acc ++ [(t, v)]) := by
            rw [lastNonempty_append_pair, if_neg ht]
          have hrec := ih { s with text := t, backup := v } (acc ++ [(t, v)]) hacc
          rw [List.append_assoc] at hrec
          simpa using hrec

/-! ## Remaining support lemmas for the claims -/

theorem set_getElem?_eq (ls : List Line) (i : Nat) (x : Line) (h : ls[i]? = some x) :
    ls.set i x = ls := by
  apply List.ext_getElem?
  intro n
  rw [List.getElem?_set]
  by_cases hni : i = n
  · subst hni
    have hlt : i < ls.length := (List.getElem?_eq_some_iff.mp h).1
    rw [if_pos rfl, if_pos hlt, h]
  · rw [if_neg hni]

theorem update_id (g : LineGraph) (i : Nat) (l : Line) (h : g.lines[i]? = some l) :
    (g.update i l.xdata l.ydata l.metadata).2 = g := by
  have hi : i < g.num_lines := (List.getElem?_eq_some_iff.mp h).1
  unfold LineGraph.update
  rw [if_pos hi]
  dsimp only
  unfold modifyLine
  rw [h]
  dsimp only
  have heta : ({ l with xdata := l.xdata, ydata := l.ydata, metadata := l.metadata } : Line)
      = l := rfl
  rw [heta, set_getElem?_eq g.lines i l h]

theorem lineMetaAt_eq (g : LineGraph) (i : Nat) (l0 : Line) (h : g.lines[i]? = some l0) :
    lineMetaAt g i = l0.metadata := by
  unfold lineMetaAt
  rw [List.getD_eq_getElem?_getD, h]
  rfl

theorem clearedLoop_fix_none_start : ∀ fuel : Nat,
    clearedLoop (-500) (-1200) fuel 1000 = none := by
  intro fuel
  cases fuel with
  | zero => simp [clearedLoop]
  | succ f =>
    have hstep : (1000 : ℚ) + -(1200 * 1000) / 1200 + 500 = 500 := by norm_num
    simp [clearedLoop, hstep, clearedLoop_fix_none f]

/-! ## The claims -/

theorem demo_one_line : 0 < (addLine initWidget).graph.num_lines := by
  with_unfolding_all decide

/-- Claim C1: after any sequence of widget events (pick/click on plotted
lines, add, delete, keystroke edits), at most one series in the store is in
the SELECTED visual state; moreover, whenever a line `j` is selected, the
`unselect(j)` call that `swap_selected` performs before selecting a
different line leaves a store with no SELECTED series at all — the old
highlight is fully cleared before the new one is applied. -/
theorem c1_at_most_one_selected (w : DebtWidget) (hw : Reach w) :
    (∀ (i j : Nat) (li lj : Line), w.graph.lines[i]? = some li →
      w.graph.lines[j]? = some lj → li.visual_state = VisualState.SELECTED →
      lj.visual_state = VisualState.SELECTED → i = j)
    ∧ (∀ j : Nat, w.selected = some j →
        ∀ l ∈ ((w.graph.unselect j).2).lines, l.visual_state ≠ VisualState.SELECTED) := by
  obtain ⟨hsel, -, -, -, -, -⟩ := reach_winv w hw
  have hsel0 : SelOK w.graph w.selected := hsel
  constructor
  · intro i j li lj hi hj hsi hsj
    cases hselv : w.selected with
    | none =>
      rw [hselv] at hsel0
      rw [hsel0 i li hi] at hsi
      exact absurd hsi (by simp)
    | some k =>
      rw [hselv] at hsel0
      have h1 := (hsel0.2 i li hi).mp hsi
      have h2 := (hsel0.2 j lj hj).mp hsj
      rw [h1, h2]
  · intro j hj l hl
    rw [hj] at hsel0
    have hall := selok_unselect_all_normal w.graph j hsel0
    obtain ⟨k, hk⟩ := List.getElem?_of_mem hl
    intro hcon
    rw [hall k l hk] at hcon
    exact absurd hcon (by simp)

/-- Witness for C1 at a concrete reachable state (one line plotted, then
clicked, so it is selected). -/
theorem c1_witness :
    (∀ (i j : Nat) (li lj : Line),
      (swapSelected (addLine initWidget) 0).graph.lines[i]? = some li →
      (swapSelected (addLine initWidget) 0).graph.lines[j]? = some lj →
      li.visual_state = VisualState.SELECTED →
      lj.visual_state = VisualState.SELECTED → i = j)
    ∧ (∀ j : Nat, (swapSelected (addLine initWidget) 0).selected = some j →
        ∀ l ∈ (((swapSelected (addLine initWidget) 0).graph.unselect j).2).lines,
          l.visual_state ≠ VisualState.SELECTED) :=
  c1_at_most_one_selected (swapSelected (addLine initWidget) 0)
    (Reach.click Reach.init.add 0 demo_one_line)


theorem plotFold_length (reqs : List (DebtMeta × List ℚ × List ℚ)) :
    ∀ g : LineGraph, g.num_lines ≤ g.max_lines →
    (plotFold g reqs).num_lines = min (g.num_lines + reqs.length) g.max_lines := by
  induction reqs with
  | nil =>
    intro g hg
    simp only [plotFold, List.foldl_nil, List.length_nil, Nat.add_zero]
    omega
  | cons r rs ih =>
    intro g hg
    have hfold : plotFold g (r :: rs) = plotFold ((g.plot r.1 r.2.1 r.2.2).2) rs := by
      simp [plotFold]
    rw [hfold]
    by_cases hcap : g.num_lines = g.max_lines
    · rw [plot_full g r.1 r.2.1 r.2.2 hcap, ih g hg]
      simp only [List.length_cons]
      omega
    · obtain ⟨-, hlines, hmax⟩ := plot_spec g r.1 r.2.1 r.2.2 hcap
      have hlen : ((g.plot r.1 r.2.1 r.2.2).2).num_lines = g.num_lines + 1 := by
        simp [LineGraph.num_lines, hlines]
      rw [ih _ (by rw [hlen, hmax]; omega), hlen, hmax]
      simp only [List.length_cons]
      omega

/-- Claim C2: starting from an empty store of capacity `max_lines`, the
size after a sequence of `plot` requests is the number of requests capped
at the capacity (so `k` successful adds give size `k`, never exceeding the
bound); a `plot` at capacity returns `False` and leaves the store — size
and every existing series — untouched; a successful `plot` returns `True`,
keeps the existing series unchanged, and appends a series whose visual
state is NORMAL. -/
theorem c2_store_capacity :
    (∀ (mx : Nat) (reqs : List (DebtMeta × List ℚ × List ℚ)),
      (plotFold (LineGraph.mk mx []) reqs).num_lines = min reqs.length mx)
    ∧ (∀ (g : LineGraph) (m : DebtMeta) (x y : List ℚ), g.num_lines = g.max_lines →
        g.plot m x y = (false, g))
    ∧ (∀ (g : LineGraph) (m : DebtMeta) (x y : List ℚ), g.num_lines ≠ g.max_lines →
        (g.plot m x y).1 = true
        ∧ (g.plot m x y).2.lines.getLast? = some ⟨normalStyle, m, x, y⟩
        ∧ (Line.mk normalStyle m x y).visual_state = VisualState.NORMAL
        ∧ (g.plot m x y).2.lines.take g.num_lines = g.lines
        ∧ (g.plot m x y).2.num_lines = g.num_lines + 1) := by
  refine ⟨?_, ?_, ?_⟩
  · intro mx reqs
    have hstart : (LineGraph.mk mx []).num_lines ≤ (LineGraph.mk mx []).max_lines := by
      simp [LineGraph.num_lines]
    have := plotFold_length reqs (LineGraph.mk mx []) hstart
    simpa [LineGraph.num_lines] using this
  · intro g m x y hcap
    exact plot_full g m x y hcap
  · intro g m x y hcap
    obtain ⟨hres, hlines, -⟩ := plot_spec g m x y hcap
    refine ⟨hres, ?_, ?_, ?_, ?_⟩
    · rw [hlines, List.getLast?_concat]
    · rw [visual_state_normal_iff]
      show ¬ normalStyle = selStyle
      decide
    · rw [hlines]
      exact List.take_left g.lines _
    · simp [LineGraph.num_lines, hlines]

/-- Witness for C2: capacity 2 with three requests ends at size 2; a full
store rejects the add unchanged; a non-full store accepts it. -/
theorem c2_witness :
    (plotFold (LineGraph.mk 2 []) [(⟨1, 1, 1⟩, [], []), (⟨2, 2, 2⟩, [], []),
      (⟨3, 3, 3⟩, [], [])]).num_lines = min 3 2
    ∧ (LineGraph.mk 0 []).plot ⟨1, 1, 1⟩ [] [] = (false, LineGraph.mk 0 [])
    ∧ ((LineGraph.mk 1 []).plot ⟨1, 1, 1⟩ [] []).1 = true := by
  refine ⟨c2_store_capacity.1 2 _, c2_store_capacity.2.1 _ _ _ _ rfl,
    (c2_store_capacity.2.2 (LineGraph.mk 1 []) ⟨1, 1, 1⟩ [] [] (by decide)).1⟩

/-- Counterexample to Claim C3 as stated: `(balance, payment, apr) =
(1000, 0, -600)` satisfies `balance > 0` and `payment > apr*balance/1200`,
yet the loop never terminates (the balance halves every month and stays
positive), so no month count is ever returned. -/
theorem c3_counterexample :
    (0 : ℚ) < 1000 ∧ (-600 : ℚ) * 1000 / 1200 < 0
    ∧ ∀ fuel : Nat, calc_time_until_cleared fuel (some 1000) (some 0) (some (-600))
        = CalcResult.outOfFuel := by
  refine ⟨by norm_num, by norm_num, ?_⟩
  intro fuel
  unfold calc_time_until_cleared
  dsimp only
  rw [if_neg (by norm_num : ¬ (0 : ℚ) ≤ (-600) * 1000 / 1200)]
  rw [clearedLoop_half_none fuel 1000 (by norm_num)]

/-- Claim C3 (amended: `apr ≥ 0` added, which the widget guarantees since
APR comes from a natural-number entry): for `balance > 0`, `apr ≥ 0` and
`payment > apr*balance/1200`, the debt-payoff computation returns a month
count `≥ 1` and a non-increasing running-balance list whose final element
is exactly `0`. -/
theorem c3_payoff_behavior (b p a : ℚ) (hb : 0 < b) (ha : 0 ≤ a)
    (hp : a * b / 1200 < p) :
    ∃ (fuel n : Nat) (seq : List ℚ),
      calc_time_until_cleared fuel (some b) (some p) (some a) = .ok (n, seq)
      ∧ 1 ≤ n
      ∧ seq.Chain' (fun x y => y ≤ x)
      ∧ seq.getLast? = some 0 := by
  obtain ⟨fuel, seq, hsome, hchain, hlast, hpos⟩ := clearedLoop_terminates_of_pos b p a ha hp
  obtain ⟨hhead, hlen⟩ := hpos hb
  refine ⟨fuel, seq.length - 1, seq, ?_, by omega, hchain, hlast⟩
  unfold calc_time_until_cleared
  dsimp only
  rw [if_neg (not_le.mpr hp), hsome]

/-- Witness for C3 at `(1000, 50, 25)`. -/
theorem c3_witness :
    ∃ (fuel n : Nat) (seq : List ℚ),
      calc_time_until_cleared fuel (some 1000) (some 50) (some 25) = .ok (n, seq)
      ∧ 1 ≤ n
      ∧ seq.Chain' (fun x y => y ≤ x)
      ∧ seq.getLast? = some 0 :=
  c3_payoff_behavior 1000 50 25 (by norm_num) (by norm_num) (by norm_num)

/-- Counterexample to Claim C4 as stated: `(1000, -500, -1200)` satisfies
`payment > apr*balance/1200`, yet the iteration hits the fixed point `500`
and loops forever. -/
theorem c4_counterexample :
    (-1200 : ℚ) * 1000 / 1200 < -500
    ∧ ∀ fuel : Nat, calc_time_until_cleared fuel (some 1000) (some (-500)) (some (-1200))
        = CalcResult.outOfFuel := by
  refine ⟨by norm_num, ?_⟩
  intro fuel
  unfold calc_time_until_cleared
  dsimp only
  rw [if_neg (by norm_num : ¬ (-500 : ℚ) ≤ (-1200) * 1000 / 1200)]
  rw [clearedLoop_fix_none_start fuel]

/-- Claim C4 (amended: the termination half additionally needs `apr ≥ 0`):
the domain-invalid condition is a function of the starting inputs alone —
for numeric inputs it is signalled exactly when `payment ≤
apr*balance/1200` holds at the starting balance, never later, whatever the
fuel — and with `apr ≥ 0` the precondition `payment > apr*balance/1200`
makes the loop terminate (some fuel returns a result). -/
theorem c4_check_once_and_termination :
    (∀ (fuel : Nat) (b p a : ℚ),
       calc_time_until_cleared fuel (some b) (some p) (some a) = .domainInvalid
         ↔ p ≤ a * b / 1200)
    ∧ (∀ b p a : ℚ, 0 ≤ a → a * b / 1200 < p →
        ∃ (fuel n : Nat) (seq : List ℚ),
          calc_time_until_cleared fuel (some b) (some p) (some a) = .ok (n, seq)) := by
  constructor
  · intro fuel b p a
    unfold calc_time_until_cleared
    dsimp only
    by_cases hdom : p ≤ a * b / 1200
    · rw [if_pos hdom]
      simp [hdom]
    · rw [if_neg hdom]
      cases hl : clearedLoop p a fuel b with
      | none => simp [hdom]
      | some s => simp [hdom]
  · intro b p a ha hp
    obtain ⟨fuel, seq, hsome, -, -, -⟩ := clearedLoop_terminates_of_pos b p a ha hp
    refine ⟨fuel, seq.length - 1, seq, ?_⟩
    unfold calc_time_until_cleared
    dsimp only
    rw [if_neg (not_le.mpr hp), hsome]

/-- Witness for C4: the check fires at `(1000, 20, 25)` for any fuel, and
`(1000, 50, 25)` terminates. -/
theorem c4_witness :
    (calc_time_until_cleared 3 (some 1000) (some 20) (some 25) = .domainInvalid
      ↔ (20 : ℚ) ≤ 25 * 1000 / 1200)
    ∧ ∃ (fuel n : Nat) (seq : List ℚ),
        calc_time_until_cleared fuel (some 1000) (some 50) (some 25) = .ok (n, seq) :=
  ⟨c4_check_once_and_termination.1 3 1000 20 25,
   c4_check_once_and_termination.2 1000 50 25 (by norm_num) (by norm_num)⟩

/-- Claim C5: when `payment ≤ apr*balance/1200`, the formula signals the
domain-invalid condition (`RuntimeError`) instead of returning a result,
and a controller edit callback whose current field values satisfy that
condition leaves the whole widget — in particular every series' data and
metadata — unmodified. -/
theorem c5_domain_invalid_silent :
    (∀ (fuel : Nat) (b p a : ℚ), p ≤ a * b / 1200 →
        calc_time_until_cleared fuel (some b) (some p) (some a) = .domainInvalid)
    ∧ (∀ (w : DebtWidget) (b p a : Nat),
        parseVal w.entries.balance = some b → parseVal w.entries.payment = some p →
        parseVal w.entries.apr = some a → (p : ℚ) ≤ (a : ℚ) * (b : ℚ) / 1200 →
        entryChangeCallback w = w) := by
  have hdom : ∀ (fuel : Nat) (b p a : ℚ), p ≤ a * b / 1200 →
      calc_time_until_cleared fuel (some b) (some p) (some a) = .domainInvalid := by
    intro fuel b p a hle
    unfold calc_time_until_cleared
    dsimp only
    rw [if_pos hle]
  refine ⟨hdom, ?_⟩
  intro w b p a hb hp ha hle
  unfold entryChangeCallback
  rw [hb, hp, ha]
  dsimp only
  rw [show calcClearedNat b p a = CalcResult.domainInvalid from hdom _ _ _ _ hle]

/-- Witness for C5: entry texts `1000 / 20 / 25` (so `20 ≤ 25*1000/1200`)
leave a concrete widget unchanged. -/
theorem c5_witness :
    entryChangeCallback ⟨LineGraph.mk 5 [], none, ⟨"1000", "20", "25"⟩, false, false⟩
      = ⟨LineGraph.mk 5 [], none, ⟨"1000", "20", "25"⟩, false, false⟩
    ∧ calc_time_until_cleared 7 (some 1000) (some 20) (some 25) = .domainInvalid :=
  ⟨c5_domain_invalid_silent.2 _ 1000 20 25 (by decide) (by decide) (by decide)
    (by norm_num),
   c5_domain_invalid_silent.1 7 1000 20 25 (by norm_num)⟩



theorem strictIncr_chain' (l : List ℚ) (h : strictIncr l = true) :
    l.Chain' (fun x y => x < y) := by
  induction l with
  | nil => simp
  | cons x t ih =>
    cases t with
    | nil => simp
    | cons y t2 =>
      unfold strictIncr at h
      simp only [Bool.and_eq_true, decide_eq_true_eq] at h
      rw [List.chain'_cons]
      exact ⟨h.1, ih h.2⟩

/-- Claim C6: the FIRE projection at `income=3000, balance=1000,
deposit=100, rate=7, safe_rate=5` terminates (fuel 100 suffices), and its
running-balance list is strictly increasing with final element at least
`1200*3000/5 = 720000`. -/
theorem c6_fire_example :
    (calc_time_until_fire 100 (some 3000) (some 1000) (some 100) (some 7) (some 5)).isOk
      = true
    ∧ (calc_time_until_fire 100 (some 3000) (some 1000) (some 100) (some 7)
        (some 5)).seqOf.Chain' (fun x y => x < y)
    ∧ 720000 ≤ ((calc_time_until_fire 100 (some 3000) (some 1000) (some 100) (some 7)
        (some 5)).seqOf.getLast?).getD 0 := by
  refine ⟨by with_unfolding_all decide,
    strictIncr_chain' _ (by with_unfolding_all decide),
    by with_unfolding_all decide⟩

/-- Counterexample to Claim C7 as stated: calling the FIRE projection with
`safe_rate` missing (`None`) does not signal a type mismatch — the source
silently substitutes `rate` for it and returns a result. -/
theorem c7_counterexample :
    (calc_time_until_fire 100 (some 3000) (some 1000) (some 100) (some 7) none).isOk = true
    ∧ calc_time_until_fire 100 (some 3000) (some 1000) (some 100) (some 7) none
        ≠ CalcResult.typeMismatch := by
  constructor <;> with_unfolding_all decide

/-- Claim C7 (amended): missing (`None`) inputs raise the type-mismatch
condition, which is distinct from domain-invalid — except where the source
deviates: the FIRE projection silently substitutes `rate` for a missing
`safe_rate` (last conjunct: the call with `safe_rate = None` equals the
call with `safe_rate = rate`), and a missing FIRE `rate`/`deposit` is only
detected when the domain check passes (the loop is never entered
otherwise). In detail: any missing debt-formula parameter gives
type-mismatch; a missing FIRE `income` gives type-mismatch; a missing FIRE
`balance` gives type-mismatch provided the (substituted) `safe_rate` is a
nonzero number; a missing FIRE `rate` or `deposit` gives type-mismatch
provided the domain check passes. -/
theorem c7_type_mismatch_behavior :
    (∀ (fuel : Nat) (b p a : Option ℚ), b = none ∨ p = none ∨ a = none →
        calc_time_until_cleared fuel b p a = .typeMismatch)
    ∧ (∀ (fuel : Nat) (bal dep r sr : Option ℚ),
        calc_time_until_fire fuel none bal dep r sr = .typeMismatch)
    ∧ (∀ (fuel : Nat) (inc sr : ℚ) (dep r : Option ℚ), sr ≠ 0 →
        calc_time_until_fire fuel (some inc) none dep r (some sr) = .typeMismatch)
    ∧ (∀ (fuel : Nat) (inc bal sr : ℚ) (dep r : Option ℚ), sr ≠ 0 →
        bal < 1200 * inc / sr → (r = none ∨ dep = none) →
        calc_time_until_fire fuel (some inc) (some bal) dep r (some sr) = .typeMismatch)
    ∧ (∀ (fuel : Nat) (inc bal dep r : Option ℚ),
        calc_time_until_fire fuel inc bal dep r none
          = calc_time_until_fire fuel inc bal dep r r)
    ∧ (CalcResult.typeMismatch : CalcResult (Nat × List ℚ)) ≠ CalcResult.domainInvalid := by
  refine ⟨?_, ?_, ?_, ?_, ?_, by decide⟩
  · intro fuel b p a h
    rcases h with rfl | rfl | rfl
    · cases p <;> cases a <;> rfl
    · cases b <;> cases a <;> rfl
    · cases b <;> cases p <;> rfl
  · intro fuel bal dep r sr
    cases hsr : (if sr = none then r else sr) with
    | none =>
      unfold calc_time_until_fire
      rw [hsr]
    | some s =>
      unfold calc_time_until_fire
      rw [hsr]
  · intro fuel inc sr dep r hsr
    unfold calc_time_until_fire
    rw [show (if (some sr : Option ℚ) = none then r else some sr) = some sr from by simp]
    dsimp only
    rw [if_neg hsr]
  · intro fuel inc bal sr dep r hsr hlt hnone
    unfold calc_time_until_fire
    rw [show (if (some sr : Option ℚ) = none then r else some sr) = some sr from by simp]
    dsimp only
    rw [if_neg hsr]
    rw [if_neg (not_le.mpr hlt)]
    rcases hnone with rfl | rfl
    · cases dep <;> rfl
    · cases r <;> rfl
  · intro fuel inc bal dep r
    cases r with
    | none => rfl
    | some rv => rfl

/-- Witness for C7 at concrete inputs for each conjunct. -/
theorem c7_witness :
    calc_time_until_cleared 5 none (some 1) (some 1) = .typeMismatch
    ∧ calc_time_until_fire 5 none (some 1) (some 1) (some 1) (some 1) = .typeMismatch
    ∧ calc_time_until_fire 5 (some 3000) none (some 100) (some 7) (some 5) = .typeMismatch
    ∧ calc_time_until_fire 5 (some 3000) (some 1000) none (some 7) (some 5) = .typeMismatch
    ∧ calc_time_until_fire 5 (some 3000) (some 1000) (some 100) (some 7) none
        = calc_time_until_fire 5 (some 3000) (some 1000) (some 100) (some 7) (some 7) :=
  ⟨c7_type_mismatch_behavior.1 5 none (some 1) (some 1) (Or.inl rfl),
   c7_type_mismatch_behavior.2.1 5 (some 1) (some 1) (some 1) (some 1),
   c7_type_mismatch_behavior.2.2.1 5 3000 5 (some 100) (some 7) (by norm_num),
   c7_type_mismatch_behavior.2.2.2.1 5 3000 1000 5 none (some 7) (by norm_num)
     (by norm_num) (Or.inr rfl),
   c7_type_mismatch_behavior.2.2.2.2.1 5 (some 3000) (some 1000) (some 100) (some 7)⟩

/-- Counterexample to Claim C8 as stated: `str(0) = "0"` is the canonical
decimal literal of the non-negative integer `0`, yet the per-keystroke
validator rejects it (`proposed[0] != '0'` fails). -/
theorem c8_counterexample : natStr 0 = "0" ∧ is_valid (natStr 0) = false := by
  constructor
  · rfl
  · decide

/-- Claim C8 (amended: the validator accepts exactly the empty string and
the digits-only strings with no leading `'0'`; consequently `str(n)` is
accepted for every positive `n`, but `str(0) = "0"` is rejected, so the
field's value domain is the positive integers or unset, not all
non-negative integers). -/
theorem c8_validation :
    is_valid "" = true
    ∧ (∀ n : Nat, 0 < n → is_valid (natStr n) = true)
    ∧ (∀ s : String, is_valid s = true ↔
        (s.data = [] ∨ (s.data.head? ≠ some '0' ∧ s.data.all Char.isDigit = true))) := by
  refine ⟨rfl, natStr_valid, ?_⟩
  intro s
  unfold is_valid
  cases hd : s.data with
  | nil => simp
  | cons c rest =>
    simp only [Bool.and_eq_true, decide_eq_true_eq, List.head?_cons, List.cons_ne_nil,
      false_or]
    constructor
    · intro h
      refine ⟨?_, h.2⟩
      intro hcon
      exact h.1 (Option.some_injective _ hcon.symm).symm
    · intro h
      refine ⟨?_, h.2⟩
      intro hcon
      exact h.1 (by rw [hcon])

/-- Witness for C8: `str(42)` is accepted. -/
theorem c8_witness : is_valid (natStr 42) = true ∧ is_valid "" = true :=
  ⟨c8_validation.2.1 42 (by decide), c8_validation.1⟩

/-- Claim C10: whenever the entry text changes to the empty string while
traces are enabled, the observer callbacks are still invoked, and the value
they receive is the most recent value previously delivered while the text
was non-empty — `0` when there has never been one.  (In the model the
delivered payload has type `Nat`, mirroring that `run_traces` always
substitutes `_backup_value` for a `None` reading, so observers never see an
empty/None marker.) -/
theorem c10_empty_write_repeats_backup (es : List EntryEvent)
    (_hval : ∀ e ∈ es, e.validEv = true)
    (hen : ((entryRun initEntry es).1).disabled = false) :
    (entryStep (entryRun initEntry es).1 (EntryEvent.write "")).2
      = some (lastNonempty (entryRun initEntry es).2) := by
  have hbk := entryRun_backup es initEntry [] rfl
  rw [List.nil_append] at hbk
  show (run_traces { (entryRun initEntry es).1 with text := "" }).2
    = some (lastNonempty (entryRun initEntry es).2)
  have hrt : run_traces { (entryRun initEntry es).1 with text := "" }
      = ({ (entryRun initEntry es).1 with text := "" },
         some ((entryRun initEntry es).1).backup) := by
    simp [run_traces, hen, parseVal]
  rw [hrt, hbk]

/-- Witness for C10: type `12`, then clear the field — the observers get
`12` again. -/
theorem c10_witness :
    (entryStep (entryRun initEntry [EntryEvent.write "12", EntryEvent.write ""]).1
      (EntryEvent.write "")).2
      = some (lastNonempty
          (entryRun initEntry [EntryEvent.write "12", EntryEvent.write ""]).2) :=
  c10_empty_write_repeats_backup [EntryEvent.write "12", EntryEvent.write ""]
    (by decide) (by decide)

theorem update_id_styled (g : LineGraph) (i : Nat) (l : Line) (st : LineStyle)
    (h : g.lines[i]? = some { l with style := st }) :
    (g.update i l.xdata l.ydata l.metadata).2 = g :=
  update_id g i { l with style := st } h

/-- Claim C9: for every reachable widget state, clicking any plotted line
`i` (which loads its metadata into the fields) and then immediately running
the edit callback on those unedited field values is a no-op: the whole
widget state — in particular line `i`'s data and metadata — is reproduced
exactly.  (A click on the already-selected line clears the fields instead,
and the callback is then swallowed as a type mismatch, again a no-op.) -/
theorem c9_noop_edit_idempotent (w : DebtWidget) (hw : Reach w) (i : Nat)
    (hi : i < w.graph.num_lines) :
    entryChangeCallback (swapSelected w i) = swapSelected w i := by
  obtain ⟨hsel, hen, hvb, hvp, hva, hcons⟩ := reach_winv w hw
  obtain ⟨g, sel, ent, ee, td⟩ := w
  have hsel0 : SelOK g sel := hsel
  have hi' : i < g.lines.length := hi
  obtain ⟨l0, hl0⟩ : ∃ l0, g.lines[i]? = some l0 :=
    ⟨g.lines[i], List.getElem?_eq_getElem hi'⟩
  have hl0mem : l0 ∈ g.lines := List.getElem?_mem hl0
  obtain ⟨hb1, hp1, ha1, hcalc0, hx0⟩ := hcons l0 hl0mem
  have hload : ∀ v : Nat, 1 ≤ v → parseVal (setEntryText "" (natStr v)) = some v := by
    intro v hv
    rw [show setEntryText "" (natStr v) = natStr v from by
      unfold setEntryText; rw [if_pos (natStr_valid v hv)]]
    exact parseVal_natStr v
  cases sel with
  | none =>
    dsimp only [swapSelected]
    rw [lineMetaAt_eq g i l0 hl0]
    have hgetsel : ((g.select i).2).lines[i]? = some { l0 with style := selStyle } := by
      rw [getElem?_select g i hi i, if_pos rfl, hl0]
      rfl
    unfold entryChangeCallback
    dsimp only [loadEntries]
    rw [hload _ hb1, hload _ hp1, hload _ ha1]
    dsimp only
    rw [hcalc0]
    dsimp only
    rw [← hx0]
    rw [show DebtMeta.mk l0.metadata.balance l0.metadata.payment l0.metadata.apr
      = l0.metadata from rfl]
    rw [update_id_styled ((g.select i).2) i l0 selStyle hgetsel]
  | some j =>
    dsimp only [swapSelected]
    by_cases hji : j = i
    · rw [if_pos hji]
      unfold entryChangeCallback
      dsimp only [clearedEntries]
      rw [show parseVal "" = (none : Option Nat) from rfl]
    · rw [if_neg hji]
      obtain ⟨hjlt, -⟩ := hsel0
      have hi2 : i < ((g.unselect j).2).num_lines := by
        rw [num_lines_unselect]
        exact hi
      rw [lineMetaAt_eq g i l0 hl0]
      have hgetun : ((g.unselect j).2).lines[i]? = some l0 := by
        rw [getElem?_unselect g j hjlt i, if_neg (fun hcon => hji hcon.symm), hl0]
      have hgetsel : ((((g.unselect j).2).select i).2).lines[i]?
          = some { l0 with style := selStyle } := by
        rw [getElem?_select ((g.unselect j).2) i hi2 i, if_pos rfl, hgetun]
        rfl
      unfold entryChangeCallback
      dsimp only [loadEntries]
      rw [hload _ hb1, hload _ hp1, hload _ ha1]
      dsimp only
      rw [hcalc0]
      dsimp only
      rw [← hx0]
      rw [show DebtMeta.mk l0.metadata.balance l0.metadata.payment l0.metadata.apr
        = l0.metadata from rfl]
      rw [update_id_styled ((((g.unselect j).2).select i).2) i l0 selStyle hgetsel]

/-- Witness for C9: one plotted line, clicked, then the callback runs on
the loaded fields — nothing changes. -/
theorem c9_witness :
    entryChangeCallback (swapSelected (addLine initWidget) 0)
      = swapSelected (addLine initWidget) 0 :=
  c9_noop_edit_idempotent (addLine initWidget) (Reach.add Reach.init) 0 demo_one_line


